import Mathlib

/-!
Verification of the local-cluster composition and resource-partitioning layer
(`distributed/deploy/local.py` of the Wukong static scheduler).

The Python source is shallowly embedded below: pure functions become Lean
functions on `Nat`, `Bool`, `String` and `Option`; Python `None` becomes
`Option.none`; Python truthiness of optionals is made explicit.  Theorems at
the end of the file settle the specification claims against this embedding.
-/

namespace Wukong

/-! ## Resource Partitioner (`nprocesses_nthreads`, local.py lines 223-248)

`dask.utils.factors(n)` (an external dependency of the source) returns the set
of all divisors of `n`; we embed it as the ascending list of divisors of `n`,
so that the Python `min(...)` over a filtered subset is the head of the
filtered list.  The Python comparison `f >= math.sqrt(n)` is embedded as
`n ≤ f * f`: for natural `f` and `n`, `f ≥ √n ↔ n ≤ f²`, and for the core
counts involved IEEE-754 `math.sqrt` is exact enough that the float comparison
agrees with the exact one (if `n = k²` then `sqrt` returns exactly `k`;
otherwise the gap between any integer and the irrational `√n` dwarfs the
half-ulp rounding error). -/

/-- Ascending list of all divisors of `n` (embedding of `dask.utils.factors`). -/
def factors (n : ℕ) : List ℕ :=
  (List.range (n + 1)).filter (fun f => decide (f ∣ n))

/-- Embedding of `nprocesses_nthreads` (local.py): the default breakdown of
processes and threads for a given number of cores.  For `n > 4`, `processes`
is `min(f for f in factors(n) if f >= sqrt(n))`; as `factors n` is ascending,
that minimum is the head of the filtered list (the `headD` default `n` is
never reached for `n > 4`, since `n` itself passes the filter). -/
def nprocesses_nthreads (n : ℕ) : ℕ × ℕ :=
  let processes :=
    if n ≤ 4 then n
    else ((factors n).filter (fun f => decide (n ≤ f * f))).headD n
  (processes, n / processes)

/-! ## Topology Resolver (`LocalCluster.__init__`, local.py lines 94-221)

Strings are embedded as Lean `String`; the only string operations the source
performs are searching for the scheme separator `"://"` (Python
`"://" in host`, `host.split("://")[0]`, `protocol.endswith("://")`,
`protocol.startswith("inproc")`), which we implement by structural recursion
over the character list `String.data`. -/

/-- The part of a character list strictly before the first occurrence of
`"://"`, or `none` when the separator does not occur.  This is
`host.split("://")[0]` together with the `"://" in host` test. -/
def beforeSep : List Char → Option (List Char)
  | ':' :: '/' :: '/' :: _ => some []
  | c :: rest => (beforeSep rest).map (fun l => c :: l)
  | [] => none

/-- Python `"://" in s`. -/
def containsSep (s : String) : Bool := (beforeSep s.data).isSome

/-- Python `s.split("://")[0]` (the whole string when the separator is
absent, as Python's `split` would give). -/
def schemeOf (s : String) : String := ⟨(beforeSep s.data).getD s.data⟩

/-- Python `s.endswith("://")`: the last three characters are `:`, `/`, `/`
(read back-to-front off the reversed character list). -/
def endsWithSep (s : String) : Bool :=
  s.data.reverse.take 3 == ['/', '/', ':']

/-- Python `s.startswith("inproc")`. -/
def startsWithInproc (s : String) : Bool :=
  s.data.take 6 == ['i', 'n', 'p', 'r', 'o', 'c']

/-- Python truthiness of an optional string (`if host:`): not `None` and
not the empty string. -/
def strTruthy : Option String → Bool
  | none => false
  | some s => s != ""

/-- Python truthiness of an optional integer (`if n_workers:`): not `None`
and not zero. -/
def natTruthy : Option ℕ → Bool
  | none => false
  | some k => k != 0

/-- local.py lines 125-127: `if ip is not None: host = ip`.  The deprecated
`ip` argument, whenever supplied, replaces `host` outright. -/
def effectiveHost (host ip : Option String) : Option String :=
  match ip with
  | some v => some v
  | none => host

/-- Python `host and "://" in host` for the optional `host` argument. -/
def hostEmbedsScheme (host : Option String) : Bool :=
  match host with
  | some s => s != "" && containsSep s
  | none => false

/-- local.py lines 148-149: `if not protocol.endswith("://"): protocol =
protocol + "://"`. -/
def normalizeProtocol (p : String) : String :=
  if endsWithSep p then p else p ++ "://"

/-- local.py lines 139-149: protocol resolution.  `security` abstracts the
truthiness of the `security` argument; `scheduler_port` is the integer port
argument (`0`, the default, is falsy in Python). -/
def resolveProtocol (protocol host : Option String) (security processes : Bool)
    (scheduler_port : ℕ) : String :=
  let p :=
    match protocol with
    | some q => q
    | none =>
      if hostEmbedsScheme host then schemeOf (host.getD "")
      else if security then "tls://"
      else if !processes && scheduler_port == 0 then "inproc://"
      else "tcp://"
  normalizeProtocol p

/-- local.py lines 151-152: `if host is None and not
protocol.startswith("inproc") and not interface: host = "127.0.0.1"`. -/
def resolveHost (host : Option String) (protocol : String)
    (interface : Option String) : Option String :=
  if host.isNone && !startsWithInproc protocol && !strTruthy interface then
    some "127.0.0.1"
  else host

/-- The full host/protocol pipeline of `__init__` in source order: deprecated
`ip` aliasing (lines 125-127), then protocol resolution (lines 139-149), then
host defaulting (lines 151-152).  Returns `(protocol, host)`. -/
def resolveHostProtocol (host ip protocol : Option String)
    (security processes : Bool) (scheduler_port : ℕ)
    (interface : Option String) : String × Option String :=
  let host := effectiveHost host ip
  let p := resolveProtocol protocol host security processes scheduler_port
  (p, resolveHost host p interface)

/-! ## Worker / thread count resolution (local.py lines 156-166) -/

/-- Python `int(math.ceil(a / b))` for naturals: ceiling division.  For the
core counts involved, float true division followed by `math.ceil` agrees with
exact ceiling division. -/
def ceilDiv (a b : ℕ) : ℕ := (a + b - 1) / b

/-- local.py lines 156-166: resolution of `(n_workers, threads_per_worker)`
from the optional arguments, the `processes` flag and the machine's core
count `_ncores` (imported from the worker module; a positive integer,
embedded here as the parameter `ncores`).  Mirrors the three successive `if`
statements of the source.  (When `threads_per_worker` is `some 0` the Python
source raises `ZeroDivisionError` at `_ncores // threads_per_worker`; the
embedding is only used, and the theorems only quantify, over positive given
thread counts.) -/
def resolveWorkers (n_workers threads_per_worker : Option ℕ) (processes : Bool)
    (ncores : ℕ) : Option ℕ × Option ℕ :=
  let st1 :=
    if n_workers.isNone && threads_per_worker.isNone then
      if processes then
        let p := nprocesses_nthreads ncores
        (some p.1, some p.2)
      else (some 1, some ncores)
    else (n_workers, threads_per_worker)
  let st2 :=
    if st1.1.isNone && st1.2.isSome then
      (some (max 1 (ncores / st1.2.getD 1)), st1.2)
    else st1
  if natTruthy st2.1 && st2.2.isNone then
    (st2.1, some (max 1 (ceilDiv ncores (st2.1.getD 1))))
  else st2

/-! ## Spec Builder (local.py lines 205-210) -/

/-- The class put in the worker spec: the plain `Worker`, the supervising
`Nanny`, or a caller-supplied custom class. -/
inductive WorkerKind where
  | worker
  | nanny
  | custom (name : String)
deriving DecidableEq, Repr

/-- local.py line 206: `worker_class or (Worker if not processes else
Nanny)` (a class object is always truthy, so a supplied `worker_class`
wins). -/
def workerCls (worker_class : Option WorkerKind) (processes : Bool) : WorkerKind :=
  match worker_class with
  | some c => c
  | none => if processes then WorkerKind.nanny else WorkerKind.worker

/-- local.py line 210: `workers = {i: worker for i in range(n_workers)}` —
the worker-spec map, as an association list from slot index to the (single,
shared) worker spec value. -/
def workersMap (n : ℕ) (w : WorkerKind) : List (ℕ × WorkerKind) :=
  (List.range n).map (fun i => (i, w))

/-! ## Lifecycle Registry (local.py lines 251-257)

`clusters_to_close = weakref.WeakSet()` is the module-level registry and
`close_clusters` the `atexit`-registered drain.  Note that nothing in
local.py ever inserts into `clusters_to_close`: `LocalCluster.__init__`
(lines 94-221) contains no `clusters_to_close.add(self)` statement, and the
set is private to this module. -/

/-- Registry effect of `LocalCluster.__init__` (local.py lines 94-221) on the
module-level weak set `clusters_to_close`: the constructor body performs no
operation on the set (there is no `clusters_to_close.add(self)` anywhere in
local.py), so the registry is returned unchanged, whatever handle was just
constructed. -/
def registryAfterInit (registry : List ℕ) (handle : ℕ) : List ℕ :=
  let _ := handle
  registry

/-- Embedding of the drain loop of `close_clusters` (local.py lines 254-257):
`for cluster in list(clusters_to_close): cluster.close(timeout=10)`.  Each
registered handle is abstracted by whether its `close` call raises (`true` =
raises).  The loop body has no `try`/`except`, so an exception propagates out
of the loop; the result counts how many `close` calls are attempted before
the loop ends (normally or by a propagating exception). -/
def close_clusters : List Bool → ℕ
  | [] => 0
  | raises :: rest => if raises then 1 else 1 + close_clusters rest

/-! ## Weak membership of the registry

Modelled from the spec: the reclamation semantics of `weakref.WeakSet`
(CPython's weak references and garbage collector) are runtime behaviour not
present in the source tree.  Following the spec's words — "`register` inserts
a non-owning reference to a cluster handle into the process-wide set; it must
not prevent the handle from being reclaimed", "entries removed automatically
when a handle is garbage-reclaimed elsewhere" — we abstract the heap by the
list of strongly-referenced handle ids, kept disjoint from the registry
itself: registering touches only the registry, and the registry's *live* view
is its intersection with the strongly-referenced handles, so a handle whose
strong references are all gone is absent from the live view with no explicit
deregistration. -/

/-- Modelled from the spec: `register(handle)` inserts the handle id into the
process-wide registry; it does not touch the strong-reference structure. -/
def registerHandle (registry : List ℕ) (h : ℕ) : List ℕ := h :: registry

/-- Modelled from the spec: the live view of the weak registry — the members
that are still strongly referenced elsewhere (a reclaimed handle disappears
from the `WeakSet` automatically). -/
def liveSet (registry strong : List ℕ) : List ℕ :=
  registry.filter (fun h => strong.contains h)

/-- The filtered factor list inspected by `nprocesses_nthreads`. -/
def sqrtFactors (n : ℕ) : List ℕ :=
  (factors n).filter (fun f => decide (n ≤ f * f))

/-! ## Theorems -/

theorem mem_sqrtFactors {n x : ℕ} :
    x ∈ sqrtFactors n ↔ x < n + 1 ∧ x ∣ n ∧ n ≤ x * x := by
  simp only [sqrtFactors, factors, List.mem_filter, List.mem_range,
    decide_eq_true_eq, and_assoc]

theorem pairwise_sqrtFactors (n : ℕ) : (sqrtFactors n).Pairwise (· < ·) :=
  ((List.pairwise_lt_range (n + 1)).filter _).filter _

theorem headD_mem_of_ne_nil {l : List ℕ} (d : ℕ) (h : l ≠ []) : l.headD d ∈ l := by
  cases l with
  | nil => exact absurd rfl h
  | cons a t => exact List.mem_cons_self a t

theorem headD_le_of_pairwise {l : List ℕ} (d : ℕ) (hp : l.Pairwise (· < ·))
    {x : ℕ} (hx : x ∈ l) : l.headD d ≤ x := by
  cases l with
  | nil => cases hx
  | cons a t =>
    rcases List.mem_cons.mp hx with h | h
    · exact h ▸ Nat.le_refl _
    · exact Nat.le_of_lt ((List.pairwise_cons.mp hp).1 x h)

theorem nprocesses_nthreads_eq (n : ℕ) :
    nprocesses_nthreads n
      = (if n ≤ 4 then n else (sqrtFactors n).headD n,
         n / (if n ≤ 4 then n else (sqrtFactors n).headD n)) := rfl

/-- C1: for every positive core count `n`, `nprocesses_nthreads n = (p, t)`
satisfies `p * t = n`, `p ≥ 1`, `t ≥ 1`; for `n ≤ 4` it returns `(n, 1)`;
for `n > 4`, `p` is the smallest factor of `n` with `p ≥ √n` (stated as
`n ≤ p * p`, which is equivalent for naturals) and `t = n / p`; and the
concrete values `nprocesses_nthreads 1 = (1, 1)`, `nprocesses_nthreads 4 =
(4, 1)`, `nprocesses_nthreads 32 = (8, 4)` hold. -/
theorem nprocesses_nthreads_spec (n : ℕ) (hn : 1 ≤ n) :
    (nprocesses_nthreads n).1 * (nprocesses_nthreads n).2 = n
    ∧ 1 ≤ (nprocesses_nthreads n).1 ∧ 1 ≤ (nprocesses_nthreads n).2
    ∧ (n ≤ 4 → nprocesses_nthreads n = (n, 1))
    ∧ (4 < n →
        (nprocesses_nthreads n).1 ∣ n
        ∧ n ≤ (nprocesses_nthreads n).1 * (nprocesses_nthreads n).1
        ∧ (∀ q, q ∣ n → n ≤ q * q → (nprocesses_nthreads n).1 ≤ q)
        ∧ (nprocesses_nthreads n).2 = n / (nprocesses_nthreads n).1)
    ∧ nprocesses_nthreads 1 = (1, 1) ∧ nprocesses_nthreads 4 = (4, 1)
    ∧ nprocesses_nthreads 32 = (8, 4) := by
  have hn0 : 0 < n := hn
  by_cases h4 : n ≤ 4
  · have hp : nprocesses_nthreads n = (n, 1) := by
      rw [nprocesses_nthreads_eq, if_pos h4, Nat.div_self hn0]
    rw [hp]
    refine ⟨Nat.mul_one n, hn, Nat.le_refl 1, fun _ => rfl,
      fun h => absurd h (Nat.not_lt.mpr h4), by decide, by decide, by decide⟩
  · have hmemn : n ∈ sqrtFactors n :=
      mem_sqrtFactors.mpr ⟨Nat.lt_succ_self n, Nat.dvd_refl n,
        Nat.le_mul_of_pos_left n hn0⟩
    have hne : sqrtFactors n ≠ [] := List.ne_nil_of_mem hmemn
    have hpmem : (sqrtFactors n).headD n ∈ sqrtFactors n := headD_mem_of_ne_nil n hne
    obtain ⟨hplt, hpdvd, hpsq⟩ := mem_sqrtFactors.mp hpmem
    have hppos : 0 < (sqrtFactors n).headD n := Nat.pos_of_dvd_of_pos hpdvd hn0
    have hplen : (sqrtFactors n).headD n ≤ n := Nat.lt_succ_iff.mp hplt
    have hmin : ∀ q, q ∣ n → n ≤ q * q → (sqrtFactors n).headD n ≤ q := by
      intro q hq hqsq
      have hqle : q ≤ n := Nat.le_of_dvd hn0 hq
      have hqmem : q ∈ sqrtFactors n :=
        mem_sqrtFactors.mpr ⟨Nat.lt_succ_of_le hqle, hq, hqsq⟩
      exact headD_le_of_pairwise n (pairwise_sqrtFactors n) hqmem
    have hpair : nprocesses_nthreads n
        = ((sqrtFactors n).headD n, n / (sqrtFactors n).headD n) := by
      rw [nprocesses_nthreads_eq, if_neg h4]
    rw [hpair]
    exact ⟨Nat.mul_div_cancel' hpdvd, hppos, Nat.div_pos hplen hppos,
      fun h => absurd h h4, fun _ => ⟨hpdvd, hpsq, hmin, rfl⟩,
      by decide, by decide, by decide⟩

/-- C1 witness: the partition of 32 cores multiplies back to 32. -/
theorem nprocesses_nthreads_spec_witness :
    (nprocesses_nthreads 32).1 * (nprocesses_nthreads 32).2 = 32 :=
  (nprocesses_nthreads_spec 32 (by decide)).1

/-- C2 counterexample: with two registered handles whose first `close`
raises, the drain loop makes exactly one close attempt, not two — the
exception propagates out of the bare `for` loop and the second handle is
never attempted. -/
theorem close_clusters_counterexample : ¬ close_clusters [true, false] = 2 := by
  decide

/-- C2 amended: the drain attempts closes in registration-list order and the
first raising close stops it: when every close succeeds all `N` handles are
attempted, but when the first `k` closes succeed and close `k` raises,
exactly `k + 1` attempts are made, so a per-handle failure does prevent
attempts on the remaining handles. -/
theorem close_clusters_attempts (handles : List Bool) :
    ((∀ b ∈ handles, b = false) → close_clusters handles = handles.length)
    ∧ (∀ k, handles.take k = List.replicate k false → handles[k]? = some true →
        close_clusters handles = k + 1) := by
  induction handles with
  | nil =>
    refine ⟨fun _ => rfl, fun k htake hget => ?_⟩
    simp at hget
  | cons b rest ih =>
    refine ⟨fun hall => ?_, fun k htake hget => ?_⟩
    · have hb : b = false := hall b (List.mem_cons_self _ _)
      have hr := ih.1 (fun x hx => hall x (List.mem_cons_of_mem _ hx))
      subst hb
      simp [close_clusters, hr]
      omega
    · cases k with
      | zero =>
        have hb : b = true := by simpa using hget
        subst hb
        simp [close_clusters]
      | succ k =>
        obtain ⟨hb, htk⟩ : b = false ∧ rest.take k = List.replicate k false := by
          simpa [List.replicate_succ] using htake
        have h2 : rest[k]? = some true := by simpa using hget
        have h3 := ih.2 k htk h2
        subst hb
        simp [close_clusters, h3]
        omega

/-- C2 witness: with three handles none of whose closes raise, all three are
attempted. -/
theorem close_clusters_attempts_witness : close_clusters [false, false, false] = 3 :=
  (close_clusters_attempts [false, false, false]).1 (by decide)

/-- C3 counterexample: with `host = "tls://foo"` and no explicit protocol
(nor security, with process mode on and the default port), the resolved
protocol is `"tls://"` but the resolved host is *not* `"foo"` — `__init__`
only reads the scheme out of `host`, it never strips it. -/
theorem tls_host_counterexample :
    ¬ resolveHostProtocol (some "tls://foo") none none false true 0 none
        = ("tls://", some "foo") := by decide

/-- C3 amended: with `host = "tls://foo"` and no explicit protocol, the
resolved protocol is `"tls://"` and the resolved host keeps the full string
`"tls://foo"` — the scheme is copied into the protocol but not removed from
the host. -/
theorem tls_host_resolution (security processes : Bool) (scheduler_port : ℕ)
    (interface : Option String) :
    resolveHostProtocol (some "tls://foo") none none security processes
      scheduler_port interface = ("tls://", some "tls://foo") := rfl

theorem data_append (s t : String) : (s ++ t).data = s.data ++ t.data := rfl

theorem endsWithSep_append (s : String) : endsWithSep (s ++ "://") = true := by
  have h : (s ++ "://").data.reverse = '/' :: '/' :: ':' :: s.data.reverse := by
    rw [data_append]
    simp [show ("://" : String).data = [':', '/', '/'] from rfl]
  unfold endsWithSep
  rw [h]
  rfl

theorem endsWithSep_normalizeProtocol (p : String) :
    endsWithSep (normalizeProtocol p) = true := by
  unfold normalizeProtocol
  by_cases h : endsWithSep p = true
  · rw [if_pos h]
    exact h
  · rw [if_neg h]
    exact endsWithSep_append p

theorem resolveProtocol_none_eq (host : Option String) (security processes : Bool)
    (scheduler_port : ℕ) :
    resolveProtocol none host security processes scheduler_port
      = normalizeProtocol
          (if hostEmbedsScheme host then schemeOf (host.getD "")
           else if security then "tls://"
           else if !processes && scheduler_port == 0 then "inproc://"
           else "tcp://") := rfl

/-- C4: with no explicit protocol, resolution follows the precedence: a
scheme embedded in the host wins (the result is that scheme, normalized);
otherwise a security context gives `"tls://"`; otherwise process mode off
together with the default (zero) scheduler port gives `"inproc://"`;
otherwise `"tcp://"`; and in every case the resolved protocol ends with the
`"://"` separator. -/
theorem protocol_precedence (host : Option String) (security processes : Bool)
    (scheduler_port : ℕ) :
    endsWithSep (resolveProtocol none host security processes scheduler_port) = true
    ∧ (∀ s, host = some s → hostEmbedsScheme host = true →
        resolveProtocol none host security processes scheduler_port
          = normalizeProtocol (schemeOf s))
    ∧ (hostEmbedsScheme host = false → security = true →
        resolveProtocol none host security processes scheduler_port = "tls://")
    ∧ (hostEmbedsScheme host = false → security = false → processes = false →
        scheduler_port = 0 →
        resolveProtocol none host security processes scheduler_port = "inproc://")
    ∧ (hostEmbedsScheme host = false → security = false →
        (processes = true ∨ scheduler_port ≠ 0) →
        resolveProtocol none host security processes scheduler_port = "tcp://") := by
  refine ⟨endsWithSep_normalizeProtocol _, fun s hs hemb => ?_, fun hemb hsec => ?_,
    fun hemb hsec hproc hport => ?_, fun hemb hsec hor => ?_⟩
  · subst hs
    simp [resolveProtocol_none_eq, hemb]
  · subst hsec
    simp [resolveProtocol_none_eq, hemb]
    decide
  · subst hsec hproc hport
    simp [resolveProtocol_none_eq, hemb]
    decide
  · subst hsec
    have hcond : (!processes && scheduler_port == 0) = false := by
      rcases hor with h | h
      · subst h
        rfl
      · simp [h]
    simp [resolveProtocol_none_eq, hemb, hcond]
    decide

/-- C4 witness: a security context with no host scheme resolves to
`"tls://"`. -/
theorem protocol_precedence_witness :
    resolveProtocol none (some "myhost") true true 8786 = "tls://" :=
  (protocol_precedence (some "myhost") true true 8786).2.2.1 rfl rfl

theorem le_mul_max_one_ceilDiv (a w : ℕ) (hw : 1 ≤ w) :
    a ≤ w * max 1 (ceilDiv a w) := by
  rcases Nat.eq_zero_or_pos a with ha | ha
  · subst ha
    exact Nat.zero_le _
  · have h1 : a + w - 1 = (a - 1) + w := by omega
    have h2 : ((a - 1) + w) / w = (a - 1) / w + 1 := Nat.add_div_right _ (by omega)
    have h5 : ceilDiv a w = (a - 1) / w + 1 := by rw [ceilDiv, h1, h2]
    have h6 : max 1 (ceilDiv a w) = (a - 1) / w + 1 := by
      rw [h5]
      exact Nat.max_eq_right (Nat.le_add_left 1 _)
    have h3 := Nat.div_add_mod (a - 1) w
    have h4 : (a - 1) % w < w := Nat.mod_lt (a - 1) hw
    rw [h6, Nat.mul_add, Nat.mul_one]
    generalize hq : (a - 1) / w = q at h3
    generalize hr : (a - 1) % w = r at h3 h4
    generalize hm : w * q = m at h3 ⊢
    omega

/-- C5: worker/thread count resolution.  With both counts unset the
Partitioner decides when process mode is on, and `(1, ncores)` is used when
it is off; with only a (positive) thread count given, the worker count is
`max 1 (ncores / threads)`; with only a (positive) worker count given, the
thread count is `max 1 ⌈ncores / workers⌉`, which overcommits
(`workers * threads ≥ ncores`); in particular 3 workers on 8 cores get 3
threads each. -/
theorem resolveWorkers_spec (ncores : ℕ) (processes : Bool) :
    resolveWorkers none none true ncores
      = (some (nprocesses_nthreads ncores).1, some (nprocesses_nthreads ncores).2)
    ∧ resolveWorkers none none false ncores = (some 1, some ncores)
    ∧ (∀ t, 1 ≤ t → resolveWorkers none (some t) processes ncores
        = (some (max 1 (ncores / t)), some t))
    ∧ (∀ w, 1 ≤ w →
        resolveWorkers (some w) none processes ncores
          = (some w, some (max 1 (ceilDiv ncores w)))
        ∧ ncores ≤ w * max 1 (ceilDiv ncores w))
    ∧ resolveWorkers (some 3) none processes 8 = (some 3, some 3) := by
  refine ⟨?_, ?_, fun t _ht => ?_, fun w hw => ⟨?_, le_mul_max_one_ceilDiv ncores w hw⟩, ?_⟩
  · simp [resolveWorkers]
  · simp [resolveWorkers]
  · simp [resolveWorkers]
  · have hw0 : w ≠ 0 := by omega
    simp [resolveWorkers, natTruthy, hw0]
  · cases processes <;> decide

/-- C5 witness: 3 workers on 8 cores resolve to `⌈8/3⌉ = 3` threads each,
overcommitting to at least the core count. -/
theorem resolveWorkers_spec_witness :
    resolveWorkers (some 3) none true 8 = (some 3, some (max 1 (ceilDiv 8 3)))
    ∧ 8 ≤ 3 * max 1 (ceilDiv 8 3) :=
  (resolveWorkers_spec 8 true).2.2.2.1 3 (by decide)

/-- C6: evaluation of the constructor's registry effect at a failing input —
constructing a cluster handle (id 42) leaves a pre-existing registry `[7]`
unchanged, and the new handle is *not* a member afterwards: no code in
local.py ever inserts into `clusters_to_close`, contradicting the claim that
`__init__` registers every new handle. -/
theorem init_does_not_register :
    registryAfterInit [7] 42 = [7]
    ∧ (registryAfterInit [7] 42).contains 42 = false := by
  decide

/-- C7: the Spec Builder's worker map has exactly the keys `0..n-1`, every
slot mapping to the one shared worker spec; the kind is the supervising
`Nanny` exactly when process mode is enabled, unless an explicit
`worker_class` is supplied, which wins. -/
theorem spec_builder_workers (n : ℕ) (worker_class : Option WorkerKind)
    (processes : Bool) :
    (∀ i v, (i, v) ∈ workersMap n (workerCls worker_class processes)
        ↔ i < n ∧ v = workerCls worker_class processes)
    ∧ (worker_class = none →
        (workerCls worker_class processes = WorkerKind.nanny ↔ processes = true))
    ∧ (∀ c, worker_class = some c → workerCls worker_class processes = c) := by
  refine ⟨fun i v => ?_, fun hwc => ?_, fun c hwc => ?_⟩
  · simp only [workersMap, List.mem_map, List.mem_range, Prod.mk.injEq]
    constructor
    · rintro ⟨a, ha, rfl, rfl⟩
      exact ⟨ha, rfl⟩
    · rintro ⟨hi, rfl⟩
      exact ⟨i, hi, rfl, rfl⟩
  · subst hwc
    cases processes <;> simp [workerCls]
  · subst hwc
    rfl

/-- C7 witness: with no explicit worker class and process mode on, the
worker kind is the nanny. -/
theorem spec_builder_workers_witness : workerCls none true = WorkerKind.nanny :=
  ((spec_builder_workers 2 none true).2.1 rfl).mpr rfl

/-- C8: host defaulting — an unset host with no interface requested and a
non-inproc protocol defaults to the loopback `"127.0.0.1"`; with an inproc
protocol or an interface given the host is left as it was (unset stays
unset); and the result is only ever the original host or the loopback, never
a wildcard bind address. -/
theorem host_defaulting (host : Option String) (protocol : String)
    (interface : Option String) :
    (host = none → startsWithInproc protocol = false → strTruthy interface = false →
      resolveHost host protocol interface = some "127.0.0.1")
    ∧ (startsWithInproc protocol = true → resolveHost host protocol interface = host)
    ∧ (strTruthy interface = true → resolveHost host protocol interface = host)
    ∧ (resolveHost host protocol interface = host
        ∨ resolveHost host protocol interface = some "127.0.0.1") := by
  refine ⟨fun hh hp hi => ?_, fun hp => ?_, fun hi => ?_, ?_⟩
  · subst hh
    simp [resolveHost, hp, hi]
  · simp [resolveHost, hp]
  · simp [resolveHost, hi]
  · unfold resolveHost
    by_cases h : (host.isNone && !startsWithInproc protocol && !strTruthy interface) = true
    · rw [if_pos h]
      exact Or.inr rfl
    · rw [if_neg h]
      exact Or.inl rfl

/-- C8 witness: unset host, tcp protocol, no interface — the host defaults
to the loopback address. -/
theorem host_defaulting_witness :
    resolveHost none "tcp://" none = some "127.0.0.1" :=
  (host_defaulting none "tcp://" none).1 rfl rfl rfl

/-- C9: weak membership of the lifecycle registry (spec-modelled `WeakSet`
semantics): registering a handle adds it to the registry without touching the
strong-reference structure, so a handle with no remaining strong references
is absent from the registry's live view — even immediately after being
registered, and without any explicit deregistration call. -/
theorem weak_registry_spec (registry strong : List ℕ) (h : ℕ)
    (hdead : h ∉ strong) :
    h ∉ liveSet (registerHandle registry h) strong
    ∧ h ∉ liveSet registry strong
    ∧ registerHandle registry h = h :: registry := by
  refine ⟨?_, ?_, rfl⟩ <;>
    simp [liveSet, registerHandle, List.mem_filter, hdead]

/-- C9 witness: handle 5, registered but with no strong references left, is
not in the live view. -/
theorem weak_registry_spec_witness :
    (5 : ℕ) ∉ liveSet (registerHandle [1] 5) [2, 3] :=
  (weak_registry_spec [1] [2, 3] 5 (by decide)).1

/-- C10: the deprecated `ip` argument, when supplied, unconditionally
replaces the host — even one the caller supplied explicitly — before any
protocol or host defaulting runs: the whole host/protocol pipeline gives the
same result whatever `host` argument accompanies a supplied `ip`; and when
`ip` is absent the host argument is kept. -/
theorem ip_overrides_host (host : Option String) (v : String)
    (protocol : Option String) (security processes : Bool) (scheduler_port : ℕ)
    (interface : Option String) :
    effectiveHost host (some v) = some v
    ∧ resolveHostProtocol host (some v) protocol security processes
        scheduler_port interface
      = resolveHostProtocol (some v) (some v) protocol security processes
          scheduler_port interface
    ∧ effectiveHost host none = host :=
  ⟨rfl, rfl, rfl⟩

end Wukong
